import Mathlib

/-!
Verification development for the Hermes rate-limit tester (`Hermes.py`).

The definitions below are a shallow embedding of the program's core:
Python strings are Lean `String`s manipulated through their character
lists, Python `float` latencies and timeouts are modelled as exact
rationals `ℚ`, Python exceptions become `Except` values, and the
`asyncio` pacing loop of `run_probe` becomes an explicit fold over an
environment that supplies, for each per-second wave, the terminal
results of that wave's tasks in completion order.
-/

/-! ## Python string primitives (character-list level, kernel-reducible) -/

/-- Characters stripped by Python `str.strip()` (the ASCII whitespace set;
the inputs exercised here contain no exotic Unicode whitespace). -/
def pySpace (c : Char) : Bool :=
  c = ' ' || c = '\t' || c = '\n' || c = '\r' || c = '\x0b' || c = '\x0c'

/-- Python `str.strip()` on a character list. -/
def pyStrip (cs : List Char) : List Char :=
  ((cs.dropWhile pySpace).reverse.dropWhile pySpace).reverse

/-- Python `str.strip()` on a `String`. -/
def pyStripS (s : String) : String :=
  String.mk (pyStrip s.data)

/-- Python `str.upper()` (ASCII uppercasing, as used for HTTP verbs). -/
def pyUpperS (s : String) : String :=
  String.mk (s.data.map Char.toUpper)

/-- Split a character list at every occurrence of `c` (like Python
`str.split(c)` with no limit). -/
def splitOnChar (c : Char) : List Char → List (List Char)
  | [] => [[]]
  | x :: xs =>
    let rest := splitOnChar c xs
    if x = c then [] :: rest
    else
      match rest with
      | [] => [[x]]
      | g :: gs => (x :: g) :: gs

/-- Split at the first occurrence of `c`, like Python `str.split(c, 1)`;
`none` exactly when `c` does not occur (the `":" in striped` test). -/
def splitFirst (c : Char) : List Char → Option (List Char × List Char)
  | [] => none
  | x :: xs =>
    if x = c then some ([], xs)
    else
      match splitFirst c xs with
      | none => none
      | some (a, b) => some (x :: a, b)

/-- Python `str.splitlines()` restricted to `'\n'` terminators (the only
line terminator the program's inputs contain): split on `'\n'`, and a
trailing newline does not produce a final empty line. -/
def pySplitlines (s : String) : List String :=
  if s.data.isEmpty then []
  else
    let parts := splitOnChar '\n' s.data
    let parts := if s.data.getLast? = some '\n' then parts.dropLast else parts
    parts.map String.mk

/-! ## Header parsing (`parse_header_lines`, Hermes.py lines 161-175) -/

/-- The two `ValueError` raise sites of `parse_header_lines`, as a
structured error carrying the offending (unstripped) line, exactly the
value interpolated into the Python message. -/
inductive HeaderError where
  | noColon (line : String)
  | emptyName (line : String)
deriving DecidableEq

/-- The offending line carried by a header error. -/
def HeaderError.line : HeaderError → String
  | .noColon l => l
  | .emptyName l => l

/-- Python `repr` of a string, for quote-and-escape-free lines (the only
shape reaching the error messages in the claims). -/
def pyRepr (s : String) : String :=
  "'" ++ s ++ "'"

/-- The exact `ValueError` message text of each raise site
(`f"헤더 형식 오류: \x7bline!r\x7d (Name: Value)"` and
`f"헤더 이름이 비어 있습니다: \x7bline!r\x7d"`). -/
def HeaderError.message : HeaderError → String
  | .noColon l => "헤더 형식 오류: " ++ pyRepr l ++ " (Name: Value)"
  | .emptyName l => "헤더 이름이 비어 있습니다: " ++ pyRepr l

/-- Python `dict` assignment `headers[name] = value`: overwrite in place
when the key is present, append otherwise. -/
def insertAssoc : List (String × String) → String → String → List (String × String)
  | [], k, v => [(k, v)]
  | (k₀, v₀) :: rest, k, v =>
    if k₀ = k then (k₀, v) :: rest else (k₀, v₀) :: insertAssoc rest k v

/-- Python `dict` lookup on the association-list model. -/
def lookupAssoc : List (String × String) → String → Option String
  | [], _ => none
  | (k₀, v₀) :: rest, k => if k₀ = k then some v₀ else lookupAssoc rest k

/-- The per-line loop body of `parse_header_lines`: strip, skip blanks,
require a colon, split at the first colon, strip name and value, require
a non-empty name, insert into the accumulated mapping. -/
def parseHeaderLinesAux : List String → List (String × String) → Except HeaderError (List (String × String))
  | [], headers => .ok headers
  | line :: rest, headers =>
    let striped := pyStrip line.data
    if striped.isEmpty then parseHeaderLinesAux rest headers
    else
      match splitFirst ':' striped with
      | none => .error (.noColon line)
      | some (n, v) =>
        let name := pyStrip n
        if name.isEmpty then .error (.emptyName line)
        else parseHeaderLinesAux rest (insertAssoc headers (String.mk name) (String.mk (pyStrip v)))

/-- `parse_header_lines(raw)` (Hermes.py lines 161-175). -/
def parse_header_lines (raw : String) : Except HeaderError (List (String × String)) :=
  parseHeaderLinesAux (pySplitlines raw) []

/-- Whether a raw line triggers one of `parse_header_lines`' two raise
conditions: non-blank after stripping, and either colon-free or with an
empty name before the first colon. -/
def isBadHeaderLine (line : String) : Bool :=
  let striped := pyStrip line.data
  if striped.isEmpty then false
  else
    match splitFirst ':' striped with
    | none => true
    | some (n, _) => (pyStrip n).isEmpty

/-! ## LatencyStats (Hermes.py lines 53-71) -/

/-- The `LatencyStats` dataclass: running count/sum/min/max, with `None`
minima/maxima before the first sample. Latencies are modelled as exact
rationals. -/
structure LatencyStats where
  count : Nat
  total_ms : ℚ
  min_ms : Option ℚ
  max_ms : Option ℚ
deriving DecidableEq

/-- The dataclass defaults: `count=0, total_ms=0.0, min_ms=None, max_ms=None`. -/
def latInit : LatencyStats := ⟨0, 0, none, none⟩

/-- `LatencyStats.add(latency_ms)`: increment count, add to the sum, and
update min/max with the source's `is None or` first-write-then-compare rule. -/
def LatencyStats.add (s : LatencyStats) (latency_ms : ℚ) : LatencyStats :=
  { count := s.count + 1
    total_ms := s.total_ms + latency_ms
    min_ms :=
      match s.min_ms with
      | none => some latency_ms
      | some m => if latency_ms < m then some latency_ms else some m
    max_ms :=
      match s.max_ms with
      | none => some latency_ms
      | some m => if latency_ms > m then some latency_ms else some m }

/-- `LatencyStats.mean()`: `None` when no samples, else `total_ms / count`. -/
def LatencyStats.mean (s : LatencyStats) : Option ℚ :=
  if s.count = 0 then none else some (s.total_ms / (s.count : ℚ))

/-- Fold a list of samples through `LatencyStats.add`. -/
def addAll (s : LatencyStats) (xs : List ℚ) : LatencyStats :=
  xs.foldl LatencyStats.add s

/-! ## RunConfig (Hermes.py lines 101-158) -/

/-- The `RunConfig` dataclass. The body is `body_text.encode("utf-8")` when
`body_text` is truthy and `None` otherwise; the byte string is modelled by
the text it encodes. -/
structure RunConfig where
  url : String
  method : String
  rps : Int
  duration_s : Int
  timeout_s : ℚ
  headers : List (String × String)
  body : Option String
  headers_text : String := ""
  body_text : String := ""
deriving DecidableEq

/-- `RunConfig.from_fields` (lines 113-136): parse the header text — the
only step that can raise — and assemble the dataclass; the propagated
`ValueError` of `parse_header_lines` is the `Except.error` case. -/
def RunConfig.from_fields (url method : String) (rps duration_s : Int) (timeout_s : ℚ)
    (headers_text body_text : String) : Except HeaderError RunConfig :=
  (parse_header_lines headers_text).map fun headers =>
    { url := url
      method := method
      rps := rps
      duration_s := duration_s
      timeout_s := timeout_s
      headers := headers
      body := if body_text = "" then none else some body_text
      headers_text := headers_text
      body_text := body_text }

/-- A preset record as consumed by `RunConfig.from_dict` (lines 149-158),
with the `data.get(..., default)` defaults already typed: `method="GET"`,
`rps=1`, `duration_s=1`, `timeout_s=10`, `headers=""`, `body=""`. -/
structure PresetDict where
  url : String
  method : String := "GET"
  rps : Int := 1
  duration_s : Int := 1
  timeout_s : ℚ := 10
  headers : String := ""
  body : String := ""
deriving DecidableEq

/-- Python `s or default` on strings: the default when `s` is empty. -/
def pyOrDefault (s dflt : String) : String :=
  if s = "" then dflt else s

/-- `RunConfig.from_dict` (lines 149-158): strip the url, strip-and-upper
the method falling back to `"GET"`, then delegate to `from_fields`. -/
def RunConfig.from_dict (d : PresetDict) : Except HeaderError RunConfig :=
  RunConfig.from_fields (pyStripS d.url) (pyOrDefault (pyUpperS (pyStripS d.method)) "GET")
    d.rps d.duration_s d.timeout_s d.headers d.body

/-! ## The request executor `fetch` (Hermes.py lines 178-200) -/

/-- What the transport (`session.request` + `resp.read()`) does on one
invocation, as observed by `fetch`'s `try` block: a response with a status
code, a raised `Exception` with a description, or an injected
`asyncio.CancelledError`. The elapsed wall-clock milliseconds measured by
`fetch`'s own timer are part of the event. -/
inductive TransportEvent where
  | response (status : Nat) (elapsed_ms : ℚ)
  | fault (desc : String) (elapsed_ms : ℚ)
  | cancelled
deriving DecidableEq

/-- `fetch` (lines 178-200). Its `except Exception` clause normalizes every
`Exception` into the `(None, dt, str(exc))` triple, but
`asyncio.CancelledError` derives from `BaseException` on the Python
versions aiohttp>=3.9 supports, so cancellation is NOT caught: it
propagates to the caller, modelled as `Except.error ()`. -/
def fetch : TransportEvent → Except Unit (Option Nat × ℚ × Option String)
  | .response st dt => .ok (some st, dt, none)
  | .fault d dt => .ok (none, dt, some d)
  | .cancelled => .error ()

/-! ## The pacing driver `run_probe` (Hermes.py lines 203-287) -/

/-- Status keys of the `Counter`: a numeric HTTP code or the `"ERR"`
sentinel chosen when the fetch triple's status is `None` (lines 259-263). -/
inductive StatusKey where
  | code (n : Nat)
  | err
deriving DecidableEq

/-- `str(k)` on a status key: decimal digits for codes, `"ERR"` for the
sentinel. -/
def statusKeyStr : StatusKey → String
  | .code n => toString n
  | .err => "ERR"

/-- `Counter[key] += 1`: bump in place when present (keeping insertion
order), insert with count 1 at the end when unseen. -/
def incrementTally : List (StatusKey × Nat) → StatusKey → List (StatusKey × Nat)
  | [], k => [(k, 1)]
  | (k₀, v₀) :: rest, k =>
    if k₀ = k then (k₀, v₀ + 1) :: rest else (k₀, v₀) :: incrementTally rest k

/-- Total of all counts in a tally. -/
def sumCounts (m : List (StatusKey × Nat)) : Nat :=
  (m.map (fun p => p.2)).sum

/-- How `finished.result()` resolves for one task of a wave (lines 248-253):
the fetch triple, a non-cancellation exception (normalized to
`(None, 0.0, message)`), or `asyncio.CancelledError` (the task was
cancelled), which the loop skips with `continue`. -/
inductive TaskResult where
  | done (status : Option Nat) (latency_ms : ℚ) (error : Option String)
  | raised (msg : String)
  | cancelled
deriving DecidableEq

/-- Whether a task ended cancelled. -/
def TaskResult.isCancelled : TaskResult → Bool
  | .cancelled => true
  | _ => false

/-- The driver's accumulated state: the `sent` counter, the latency
accumulator, the status tally, and the number of log lines enqueued. -/
structure ProbeState where
  sent : Nat
  latencies : LatencyStats
  status_counts : List (StatusKey × Nat)
  logLines : Nat
deriving DecidableEq

/-- State before the first wave: `sent = 0`, fresh stats, empty `Counter`. -/
def probeInit : ProbeState := ⟨0, latInit, [], 0⟩

/-- The recording step for one non-cancelled completion (lines 255-271):
`sent += 1`; add the latency when it is not `None` (it never is, since
`fetch` always returns a float and the exception path substitutes `0.0`);
tally under the code or the `"ERR"` sentinel; enqueue one log line. -/
def record_outcome (s : ProbeState) (status : Option Nat) (latency_ms : Option ℚ) : ProbeState :=
  { sent := s.sent + 1
    latencies :=
      match latency_ms with
      | some l => s.latencies.add l
      | none => s.latencies
    status_counts :=
      incrementTally s.status_counts (match status with | none => .err | some c => .code c)
    logLines := s.logLines + 1 }

/-- Processing of one drained task (lines 247-271): cancelled results are
skipped by `continue`; completed fetches record their triple; a raising
task records `(None, 0.0, message)`. -/
def process_completion (s : ProbeState) (r : TaskResult) : ProbeState :=
  match r with
  | .cancelled => s
  | .done st l _ => record_outcome s st (some l)
  | .raised _ => record_outcome s none (some 0)

/-- Draining one wave: the inner `while pending:` loop processes every task
of the wave to a terminal state, in completion order. -/
def process_wave (s : ProbeState) (w : List TaskResult) : ProbeState :=
  w.foldl process_completion s

/-- Number of a wave's tasks that are recorded (everything not cancelled). -/
def recordedCount (w : List TaskResult) : Nat :=
  w.countP (fun r => !r.isCancelled)

/-- The outer `while` loop of `run_probe` (lines 225-276), over an
environment: `timeUp i` is the `time.perf_counter() < end_time` test at the
i-th guard evaluation, `stopSig i` is `stop_flag.is_set()` there, and
`waves` supplies each wave's terminal task results in completion order
(exhaustion of the supply means the time horizon was reached). Returns the
final state and the number of waves launched. -/
def run_probe_loop (stopSig timeUp : Nat → Bool) : Nat → List (List TaskResult) → ProbeState → ProbeState × Nat
  | i, [], s => (s, i)
  | i, w :: rest, s =>
    if timeUp i || stopSig i then (s, i)
    else run_probe_loop stopSig timeUp (i + 1) rest (process_wave s w)

/-- A whole run of the pacing loop from the initial state. -/
def run_probe_model (stopSig timeUp : Nat → Bool) (waves : List (List TaskResult)) : ProbeState × Nat :=
  run_probe_loop stopSig timeUp 0 waves probeInit

/-! ## RunSummary and its serialization (Hermes.py lines 74-98) -/

/-- The `RunSummary` dataclass. `started_at` is the naive-UTC
`datetime` captured at run start, modelled by its `isoformat()` text. -/
structure RunSummary where
  total_sent : Nat
  status_counts : List (StatusKey × Nat)
  elapsed_s : ℚ
  latencies : LatencyStats
  started_at : String
deriving DecidableEq

/-- `round(y)` to the nearest integer with Python's round-half-to-even
tie rule, on exact rationals. -/
def pyRoundInt (y : ℚ) : ℤ :=
  let f := ⌊y⌋
  let r := y - (f : ℚ)
  if r < 1 / 2 then f
  else if r > 1 / 2 then f + 1
  else if f % 2 = 0 then f else f + 1

/-- Python `round(x, 3)` on the exact-rational model of the float. -/
def pyRound3 (x : ℚ) : ℚ :=
  ((pyRoundInt (x * 1000) : ℚ)) / 1000

/-- Python `v or 0.0` for an optional float that is `None` only when there
is no data: `0.0` for `None`; a float `v` maps to itself (`0.0` is falsy
but `v or 0.0` is then `0.0` = `v` anyway). -/
def pyOrZero (o : Option ℚ) : ℚ :=
  o.getD 0

/-- The `latency` entry of the serialized summary: `count`-only when no
samples, else count with the three rounded statistics. -/
inductive LatencyJson where
  | countOnly
  | full (count : Nat) (average_ms min_ms max_ms : ℚ)
deriving DecidableEq

/-- The record produced by `RunSummary.to_dict` (lines 82-98), field for
field. -/
structure SummaryDict where
  total_sent : Nat
  elapsed_s : ℚ
  status_counts : List (String × Nat)
  started_at : String
  latency : LatencyJson
deriving DecidableEq

/-- `RunSummary.to_dict` (lines 82-98): integer total, elapsed rounded to
3 decimals, status keys stringified, `isoformat() + "Z"`, and the latency
block chosen by the truthiness of `latencies.count`. -/
def RunSummary.to_dict (s : RunSummary) : SummaryDict :=
  { total_sent := s.total_sent
    elapsed_s := pyRound3 s.elapsed_s
    status_counts := s.status_counts.map (fun p => (statusKeyStr p.1, p.2))
    started_at := s.started_at ++ "Z"
    latency :=
      if s.latencies.count = 0 then .countOnly
      else
        .full s.latencies.count (pyRound3 (pyOrZero s.latencies.mean))
          (pyRound3 (pyOrZero s.latencies.min_ms)) (pyRound3 (pyOrZero s.latencies.max_ms)) }

/-- A rational that carries at most 3 decimal places, i.e. is exactly
representable in the serialized 3-decimal form. -/
def threeDecimal (q : ℚ) : Prop := ∃ n : ℤ, q = (n : ℚ) / 1000

/-- All numeric fields of a latency block carry at most 3 decimals. -/
def latencyRounded : LatencyJson → Prop
  | .countOnly => True
  | .full _ a m M => threeDecimal a ∧ threeDecimal m ∧ threeDecimal M

/-! ## The JSON value layer (`save_json`/`json.dumps` + `json.loads`,
Hermes.py lines 294-300). `json.dumps` followed by `json.loads` is the
identity on the finite numbers, strings and string-keyed objects produced
by `RunSummary.to_dict`, so the round trip is modelled at the level of
JSON values. -/

/-- JSON values as produced for the summary payload. -/
inductive Json where
  | num (q : ℚ)
  | str (s : String)
  | obj (fields : List (String × Json))

/-- Field lookup in a parsed JSON object, as a reader of the re-loaded
record would perform it. -/
def jLookup : List (String × Json) → String → Option Json
  | [], _ => none
  | (k₀, v) :: rest, k => if k₀ = k then some v else jLookup rest k

/-- The JSON object fields of a serialized latency block. -/
def latencyJsonFields : LatencyJson → List (String × Json)
  | .countOnly => [("count", .num 0)]
  | .full c a m M =>
      [("count", .num c), ("average_ms", .num a), ("min_ms", .num m), ("max_ms", .num M)]

/-- The JSON object fields written for a `SummaryDict` by `save_json`. -/
def summaryJson (d : SummaryDict) : List (String × Json) :=
  [("total_sent", .num d.total_sent),
   ("elapsed_s", .num d.elapsed_s),
   ("status_counts", .obj (d.status_counts.map (fun p => (p.1, Json.num p.2)))),
   ("started_at", .str d.started_at),
   ("latency", .obj (latencyJsonFields d.latency))]

/-! ## Headless mode (`run_headless`, Hermes.py lines 925-973) -/

/-- The argparse namespace fields `run_headless` reads. String options are
`None` when absent (argparse defaults); the method, rps, duration and
timeout options have the non-`None` defaults `"GET"`, `5`, `30`, `10.0`.
A preset, when
given, is modelled as the already-loaded record. -/
structure HeadlessArgs where
  url : Option String
  headers : Option String := none
  headers_path : Option String := none
  body : Option String := none
  body_path : Option String := none
  method : String := "GET"
  rps : Int := 5
  duration : Int := 30
  timeout : ℚ := 10
  preset : Option PresetDict := none

/-- Python truthiness of an optional string: `None` and `""` are falsy. -/
def pyTruthy : Option String → Bool
  | none => false
  | some s => !(s = "")

/-- Python truthiness of an int: `0` is falsy. -/
def pyTruthyInt (n : Int) : Bool := !(n = 0)

/-- Python `a or b` for optional-string `a` against a string `b`. -/
def pyOrStr (a : Option String) (b : String) : String :=
  if pyTruthy a then a.getD "" else b

/-- Python `a or b` on ints. -/
def pyOrInt (a b : Int) : Int :=
  if pyTruthyInt a then a else b

/-- The distinct `ValueError` raise sites of `run_headless`, plus the
propagated header-parsing error of `RunConfig.from_fields`. -/
inductive HeadlessError where
  | conflictHeaders
  | conflictBody
  | missingUrl
  | header (e : HeaderError)
deriving DecidableEq

/-- The message of each `run_headless` `ValueError`. -/
def HeadlessError.message : HeadlessError → String
  | .conflictHeaders => "--headers and --headers-path cannot be used together"
  | .conflictBody => "--body and --body-path cannot be used together"
  | .missingUrl => "URL is required in headless mode (use --url or preset with URL)"
  | .header e => e.message

/-- The common tail of `run_headless` (lines 962-973): the `if not url`
check and the final `RunConfig.from_fields` call with
`url.strip()` and `method.strip().upper() or "GET"`. -/
def headlessFinish (url method : String) (rps duration : Int) (timeout : ℚ)
    (headers_text body_text : String) : Except HeadlessError RunConfig :=
  if url = "" then .error .missingUrl
  else
    (RunConfig.from_fields (pyStripS url) (pyOrDefault (pyUpperS (pyStripS method)) "GET")
      rps duration timeout headers_text body_text).mapError .header

/-- `run_headless` up to the construction of the `RunConfig`
(lines 925-973): the two mutual-exclusion checks run first, then header
and body text are resolved (`readFile` models `Path(...).read_text`),
then preset merging (the preset record goes through
`RunConfig.from_dict`, whose header-parsing error propagates), the URL
requirement, and the final `RunConfig.from_fields`. The probe itself is
outside this model. -/
def run_headless_config (readFile : String → String) (a : HeadlessArgs) :
    Except HeadlessError RunConfig :=
  if pyTruthy a.headers && pyTruthy a.headers_path then .error .conflictHeaders
  else if pyTruthy a.body && pyTruthy a.body_path then .error .conflictBody
  else
    let headers_text₀ :=
      if pyTruthy a.headers then a.headers.getD ""
      else if pyTruthy a.headers_path then readFile (a.headers_path.getD "")
      else ""
    let body_text₀ :=
      if pyTruthy a.body then a.body.getD ""
      else if pyTruthy a.body_path then readFile (a.body_path.getD "")
      else ""
    match a.preset with
    | some pd =>
      match RunConfig.from_dict pd with
      | .error e => .error (.header e)
      | .ok preset =>
        let url := pyOrStr a.url preset.url
        let method := pyOrDefault a.method preset.method
        let rps := pyOrInt a.rps preset.rps
        let duration := pyOrInt a.duration preset.duration_s
        let timeout := if a.timeout = 0 then preset.timeout_s else a.timeout
        let headers_text := if headers_text₀ = "" then preset.headers_text else headers_text₀
        let body_text := if body_text₀ = "" then preset.body_text else body_text₀
        headlessFinish url method rps duration timeout headers_text body_text
    | none =>
      headlessFinish (a.url.getD "") (pyUpperS (pyOrDefault a.method "GET"))
        a.rps a.duration a.timeout headers_text₀ body_text₀

/-! ## Helper lemmas: tally, completion processing, pacing loop -/

theorem sumCounts_incrementTally (m : List (StatusKey × Nat)) (k : StatusKey) :
    sumCounts (incrementTally m k) = sumCounts m + 1 := by
  induction m with
  | nil => simp [incrementTally, sumCounts]
  | cons p rest ih =>
    obtain ⟨k₀, v₀⟩ := p
    by_cases h : k₀ = k
    · simp [incrementTally, h, sumCounts]
      omega
    · simp [incrementTally, h, sumCounts] at ih ⊢
      omega

theorem process_completion_inv (s : ProbeState) (r : TaskResult)
    (h₁ : sumCounts s.status_counts = s.sent) (h₂ : s.latencies.count = s.sent) :
    sumCounts (process_completion s r).status_counts = (process_completion s r).sent ∧
    (process_completion s r).latencies.count = (process_completion s r).sent := by
  cases r with
  | cancelled => exact ⟨h₁, h₂⟩
  | done st l e =>
    exact ⟨by simp [process_completion, record_outcome, sumCounts_incrementTally, h₁],
           by simp [process_completion, record_outcome, LatencyStats.add, h₂]⟩
  | raised m =>
    exact ⟨by simp [process_completion, record_outcome, sumCounts_incrementTally, h₁],
           by simp [process_completion, record_outcome, LatencyStats.add, h₂]⟩

theorem process_wave_inv (w : List TaskResult) : ∀ (s : ProbeState),
    sumCounts s.status_counts = s.sent → s.latencies.count = s.sent →
    sumCounts (process_wave s w).status_counts = (process_wave s w).sent ∧
    (process_wave s w).latencies.count = (process_wave s w).sent := by
  induction w with
  | nil => intro s h₁ h₂; exact ⟨h₁, h₂⟩
  | cons r rest ih =>
    intro s h₁ h₂
    have hstep := process_completion_inv s r h₁ h₂
    exact ih (process_completion s r) hstep.1 hstep.2

theorem run_probe_loop_inv (stopSig timeUp : Nat → Bool) :
    ∀ (waves : List (List TaskResult)) (i : Nat) (s : ProbeState),
      sumCounts s.status_counts = s.sent → s.latencies.count = s.sent →
      sumCounts (run_probe_loop stopSig timeUp i waves s).1.status_counts
          = (run_probe_loop stopSig timeUp i waves s).1.sent ∧
      (run_probe_loop stopSig timeUp i waves s).1.latencies.count
          = (run_probe_loop stopSig timeUp i waves s).1.sent := by
  intro waves
  induction waves with
  | nil => intro i s h₁ h₂; exact ⟨h₁, h₂⟩
  | cons w rest ih =>
    intro i s h₁ h₂
    by_cases h : (timeUp i || stopSig i) = true
    · simpa [run_probe_loop, h] using ⟨h₁, h₂⟩
    · have hw := process_wave_inv w s h₁ h₂
      simpa [run_probe_loop, h] using ih (i + 1) (process_wave s w) hw.1 hw.2

theorem process_wave_sent (w : List TaskResult) : ∀ (s : ProbeState),
    (process_wave s w).sent = s.sent + recordedCount w := by
  induction w with
  | nil => intro s; simp [process_wave, recordedCount]
  | cons r rest ih =>
    intro s
    have hw : process_wave s (r :: rest) = process_wave (process_completion s r) rest := rfl
    rw [hw, ih]
    cases r <;>
      simp [process_completion, record_outcome, recordedCount, TaskResult.isCancelled,
        List.countP_cons] <;> omega

theorem run_probe_loop_start_le (stopSig timeUp : Nat → Bool) :
    ∀ (waves : List (List TaskResult)) (i : Nat) (s : ProbeState),
      i ≤ (run_probe_loop stopSig timeUp i waves s).2 := by
  intro waves
  induction waves with
  | nil => intro i s; simp [run_probe_loop]
  | cons w rest ih =>
    intro i s
    by_cases h : (timeUp i || stopSig i) = true
    · simp [run_probe_loop, h]
    · have := ih (i + 1) (process_wave s w)
      simp only [run_probe_loop, h, Bool.false_eq_true, if_false]
      omega

theorem run_probe_loop_sent (stopSig timeUp : Nat → Bool) :
    ∀ (waves : List (List TaskResult)) (i : Nat) (s : ProbeState),
      (run_probe_loop stopSig timeUp i waves s).1.sent =
        s.sent + (((waves.take ((run_probe_loop stopSig timeUp i waves s).2 - i)).map recordedCount).sum) := by
  intro waves
  induction waves with
  | nil => intro i s; simp [run_probe_loop]
  | cons w rest ih =>
    intro i s
    by_cases h : (timeUp i || stopSig i) = true
    · simp [run_probe_loop, h]
    · have hge := run_probe_loop_start_le stopSig timeUp rest (i + 1) (process_wave s w)
      have hih := ih (i + 1) (process_wave s w)
      simp only [run_probe_loop, h, Bool.false_eq_true, if_false]
      have hsub : (run_probe_loop stopSig timeUp (i + 1) rest (process_wave s w)).2 - i =
          ((run_probe_loop stopSig timeUp (i + 1) rest (process_wave s w)).2 - (i + 1)) + 1 := by
        omega
      rw [hsub, List.take_succ_cons, List.map_cons, List.sum_cons, hih, process_wave_sent]
      omega

theorem run_probe_loop_stop_bound (stopSig timeUp : Nat → Bool) (k : Nat)
    (hstop : stopSig (k + 1) = true) :
    ∀ (waves : List (List TaskResult)) (i : Nat) (s : ProbeState), i ≤ k + 1 →
      (run_probe_loop stopSig timeUp i waves s).2 ≤ k + 1 := by
  intro waves
  induction waves with
  | nil => intro i s hi; simpa [run_probe_loop] using hi
  | cons w rest ih =>
    intro i s hi
    by_cases h : (timeUp i || stopSig i) = true
    · simpa [run_probe_loop, h] using hi
    · have hne : i ≠ k + 1 := by
        intro e
        rw [e, hstop] at h
        simp at h
      have hnext : i + 1 ≤ k + 1 := by omega
      simpa [run_probe_loop, h] using ih (i + 1) (process_wave s w) hnext

/-! ## Claim theorems -/

/-- Claim C1: for every completed run of the pacing loop, the sum of all
tally counts equals the sent counter and equals the latency-sample count;
and each processed (non-cancelled) completion increments all three by
exactly one. -/
theorem run_probe_counts_agree :
    (∀ (stopSig timeUp : Nat → Bool) (waves : List (List TaskResult)),
      sumCounts (run_probe_model stopSig timeUp waves).1.status_counts
          = (run_probe_model stopSig timeUp waves).1.sent ∧
      (run_probe_model stopSig timeUp waves).1.latencies.count
          = (run_probe_model stopSig timeUp waves).1.sent) ∧
    (∀ (s : ProbeState) (r : TaskResult), r ≠ TaskResult.cancelled →
      (process_completion s r).sent = s.sent + 1 ∧
      (process_completion s r).latencies.count = s.latencies.count + 1 ∧
      sumCounts (process_completion s r).status_counts = sumCounts s.status_counts + 1) := by
  constructor
  · intro stopSig timeUp waves
    exact run_probe_loop_inv stopSig timeUp waves 0 probeInit rfl rfl
  · intro s r hr
    cases r with
    | cancelled => exact absurd rfl hr
    | done st l e =>
      exact ⟨rfl, by simp [process_completion, record_outcome, LatencyStats.add],
        by simp [process_completion, record_outcome, sumCounts_incrementTally]⟩
    | raised m =>
      exact ⟨rfl, by simp [process_completion, record_outcome, LatencyStats.add],
        by simp [process_completion, record_outcome, sumCounts_incrementTally]⟩

/-- Witness for C1: one concrete processed completion bumps the sent
counter from 0 to 1. -/
theorem run_probe_counts_agree_witness :
    (TaskResult.done (some 200) 10 none ≠ TaskResult.cancelled) ∧
    (process_completion probeInit (TaskResult.done (some 200) 10 none)).sent = probeInit.sent + 1 :=
  ⟨by decide, (run_probe_counts_agree.2 probeInit (TaskResult.done (some 200) 10 none) (by decide)).1⟩

/-- Claim C4 (amended): once the stop flag is set during wave `k` — so it
reads true at the guard check `k+1` — no wave `k+1` is launched; every
non-cancelled completion of every launched wave is recorded in the sent
counter (which the latency count and the tally total both equal), while
cancelled tasks of the final wave are drained but skipped. -/
theorem run_probe_cancellation (stopSig timeUp : Nat → Bool)
    (waves : List (List TaskResult)) (k : Nat) (hstop : stopSig (k + 1) = true) :
    (run_probe_model stopSig timeUp waves).2 ≤ k + 1 ∧
    (run_probe_model stopSig timeUp waves).1.sent =
      (((waves.take (run_probe_model stopSig timeUp waves).2).map recordedCount).sum) ∧
    sumCounts (run_probe_model stopSig timeUp waves).1.status_counts
        = (run_probe_model stopSig timeUp waves).1.sent ∧
    (run_probe_model stopSig timeUp waves).1.latencies.count
        = (run_probe_model stopSig timeUp waves).1.sent := by
  refine ⟨run_probe_loop_stop_bound stopSig timeUp k hstop waves 0 probeInit (by omega), ?_, ?_, ?_⟩
  · have := run_probe_loop_sent stopSig timeUp waves 0 probeInit
    simpa [run_probe_model, probeInit] using this
  · exact (run_probe_loop_inv stopSig timeUp waves 0 probeInit rfl rfl).1
  · exact (run_probe_loop_inv stopSig timeUp waves 0 probeInit rfl rfl).2

/-- Witness for C4: with the stop flag set from observation point 1 on
(set during wave 0), only wave 0 of a two-wave supply is launched. -/
theorem run_probe_cancellation_witness :
    ((fun i => decide (1 ≤ i)) (0 + 1) = true) ∧
    (run_probe_model (fun i => decide (1 ≤ i)) (fun _ => false)
        [[TaskResult.done (some 200) 10 none], [TaskResult.done (some 200) 10 none]]).2 ≤ 0 + 1 :=
  ⟨by decide,
   (run_probe_cancellation (fun i => decide (1 ≤ i)) (fun _ => false)
      [[TaskResult.done (some 200) 10 none], [TaskResult.done (some 200) 10 none]] 0 (by decide)).1⟩

/-- Counterexample to C4 as stated: stop is set during wave 0, whose second
task ends cancelled. Wave 1 is indeed not launched, but the cancelled
request of wave 0 resolves to NO recorded outcome: only 1 of the wave's 2
requests reaches the sent counter, the latency accumulator and the tally
(`finished.result()` raising `CancelledError` is skipped by `continue`,
Hermes.py lines 250-251). -/
theorem run_probe_cancelled_dropped_cex :
    (run_probe_model (fun i => decide (1 ≤ i)) (fun _ => false)
        [[TaskResult.done (some 200) 10 none, TaskResult.cancelled],
         [TaskResult.done (some 200) 10 none, TaskResult.done (some 200) 10 none]]).2 = 1 ∧
    ((([[TaskResult.done (some 200) 10 none, TaskResult.cancelled],
        [TaskResult.done (some 200) 10 none, TaskResult.done (some 200) 10 none]] :
          List (List TaskResult)).headD []).length = 2) ∧
    (run_probe_model (fun i => decide (1 ≤ i)) (fun _ => false)
        [[TaskResult.done (some 200) 10 none, TaskResult.cancelled],
         [TaskResult.done (some 200) 10 none, TaskResult.done (some 200) 10 none]]).1.sent = 1 ∧
    (run_probe_model (fun i => decide (1 ≤ i)) (fun _ => false)
        [[TaskResult.done (some 200) 10 none, TaskResult.cancelled],
         [TaskResult.done (some 200) 10 none, TaskResult.done (some 200) 10 none]]).1.latencies.count = 1 ∧
    sumCounts (run_probe_model (fun i => decide (1 ≤ i)) (fun _ => false)
        [[TaskResult.done (some 200) 10 none, TaskResult.cancelled],
         [TaskResult.done (some 200) 10 none, TaskResult.done (some 200) 10 none]]).1.status_counts = 1 := by
  refine ⟨rfl, rfl, rfl, rfl, rfl⟩

/-! ## Helper lemmas: latency accumulator -/

theorem addAll_count (xs : List ℚ) : ∀ s : LatencyStats,
    (addAll s xs).count = s.count + xs.length := by
  induction xs with
  | nil => intro s; simp [addAll]
  | cons x rest ih =>
    intro s
    have h : addAll s (x :: rest) = addAll (s.add x) rest := rfl
    rw [h, ih]
    simp [LatencyStats.add]
    omega

theorem addAll_total (xs : List ℚ) : ∀ s : LatencyStats,
    (addAll s xs).total_ms = s.total_ms + xs.sum := by
  induction xs with
  | nil => intro s; simp [addAll]
  | cons x rest ih =>
    intro s
    have h : addAll s (x :: rest) = addAll (s.add x) rest := rfl
    rw [h, ih]
    simp [LatencyStats.add]
    ring

theorem add_min_some (s : LatencyStats) (m x : ℚ) (h : s.min_ms = some m) :
    (s.add x).min_ms = some (min m x) := by
  simp only [LatencyStats.add, h]
  by_cases hx : x < m
  · simp [hx, min_eq_right (le_of_lt hx)]
  · simp [hx, min_eq_left (le_of_not_lt hx)]

theorem add_max_some (s : LatencyStats) (m x : ℚ) (h : s.max_ms = some m) :
    (s.add x).max_ms = some (max m x) := by
  simp only [LatencyStats.add, h]
  by_cases hx : x > m
  · simp [hx, max_eq_right (le_of_lt hx)]
  · simp [hx, max_eq_left (le_of_not_lt hx)]

theorem addAll_min (xs : List ℚ) : ∀ (s : LatencyStats) (m : ℚ), s.min_ms = some m →
    (addAll s xs).min_ms = some (xs.foldl min m) := by
  induction xs with
  | nil => intro s m h; simpa [addAll] using h
  | cons x rest ih =>
    intro s m h
    have hstep : addAll s (x :: rest) = addAll (s.add x) rest := rfl
    rw [hstep, ih (s.add x) (min m x) (add_min_some s m x h)]
    rfl

theorem addAll_max (xs : List ℚ) : ∀ (s : LatencyStats) (m : ℚ), s.max_ms = some m →
    (addAll s xs).max_ms = some (xs.foldl max m) := by
  induction xs with
  | nil => intro s m h; simpa [addAll] using h
  | cons x rest ih =>
    intro s m h
    have hstep : addAll s (x :: rest) = addAll (s.add x) rest := rfl
    rw [hstep, ih (s.add x) (max m x) (add_max_some s m x h)]
    rfl

theorem foldl_min_le_init (xs : List ℚ) : ∀ x : ℚ, xs.foldl min x ≤ x := by
  induction xs with
  | nil => intro x; simp
  | cons a rest ih =>
    intro x
    calc (a :: rest).foldl min x = rest.foldl min (min x a) := rfl
    _ ≤ min x a := ih _
    _ ≤ x := min_le_left _ _

theorem init_le_foldl_max (xs : List ℚ) : ∀ x : ℚ, x ≤ xs.foldl max x := by
  induction xs with
  | nil => intro x; simp
  | cons a rest ih =>
    intro x
    calc x ≤ max x a := le_max_left _ _
    _ ≤ rest.foldl max (max x a) := ih _
    _ = (a :: rest).foldl max x := rfl

theorem foldl_min_mul_le_sum (xs : List ℚ) : ∀ x : ℚ,
    xs.foldl min x * ((xs.length : ℚ) + 1) ≤ x + xs.sum := by
  induction xs with
  | nil => intro x; simp
  | cons a rest ih =>
    intro x
    have h1 := ih (min x a)
    have h2 : rest.foldl min (min x a) ≤ min x a := foldl_min_le_init rest (min x a)
    have hx : min x a ≤ x := min_le_left _ _
    have ha : min x a ≤ a := min_le_right _ _
    have hfold : (a :: rest).foldl min x = rest.foldl min (min x a) := rfl
    rw [hfold, List.length_cons, List.sum_cons]
    push_cast
    have hexp : rest.foldl min (min x a) * ((rest.length : ℚ) + 1 + 1) =
        rest.foldl min (min x a) * ((rest.length : ℚ) + 1) + rest.foldl min (min x a) := by
      ring
    rw [hexp]
    linarith

theorem sum_le_foldl_max_mul (xs : List ℚ) : ∀ x : ℚ,
    x + xs.sum ≤ xs.foldl max x * ((xs.length : ℚ) + 1) := by
  induction xs with
  | nil => intro x; simp
  | cons a rest ih =>
    intro x
    have h1 := ih (max x a)
    have h2 : max x a ≤ rest.foldl max (max x a) := init_le_foldl_max rest (max x a)
    have hx : x ≤ max x a := le_max_left _ _
    have ha : a ≤ max x a := le_max_right _ _
    have hfold : (a :: rest).foldl max x = rest.foldl max (max x a) := rfl
    rw [hfold, List.length_cons, List.sum_cons]
    push_cast
    have hexp : rest.foldl max (max x a) * ((rest.length : ℚ) + 1 + 1) =
        rest.foldl max (max x a) * ((rest.length : ℚ) + 1) + rest.foldl max (max x a) := by
      ring
    rw [hexp]
    linarith

/-- Claim C9: after a non-empty sequence of `add` calls, `count` is the
number of calls, `min_ms`/`max_ms` are the minimum/maximum of the recorded
values, `mean` is `total_ms / count`, and `min ≤ mean ≤ max`. -/
theorem latency_stats_min_mean_max (x : ℚ) (xs : List ℚ) :
    (addAll latInit (x :: xs)).count = xs.length + 1 ∧
    (addAll latInit (x :: xs)).total_ms = x + xs.sum ∧
    (addAll latInit (x :: xs)).min_ms = some (xs.foldl min x) ∧
    (addAll latInit (x :: xs)).max_ms = some (xs.foldl max x) ∧
    (addAll latInit (x :: xs)).mean = some ((x + xs.sum) / ((xs.length : ℚ) + 1)) ∧
    xs.foldl min x ≤ (x + xs.sum) / ((xs.length : ℚ) + 1) ∧
    (x + xs.sum) / ((xs.length : ℚ) + 1) ≤ xs.foldl max x := by
  have hstep : addAll latInit (x :: xs) = addAll (latInit.add x) xs := rfl
  have hcount : (addAll latInit (x :: xs)).count = xs.length + 1 := by
    rw [hstep, addAll_count]
    simp [latInit, LatencyStats.add]
    omega
  have htotal : (addAll latInit (x :: xs)).total_ms = x + xs.sum := by
    rw [hstep, addAll_total]
    simp [latInit, LatencyStats.add]
  have hmin : (addAll latInit (x :: xs)).min_ms = some (xs.foldl min x) := by
    rw [hstep]
    exact addAll_min xs (latInit.add x) x rfl
  have hmax : (addAll latInit (x :: xs)).max_ms = some (xs.foldl max x) := by
    rw [hstep]
    exact addAll_max xs (latInit.add x) x rfl
  have hpos : (0 : ℚ) < (xs.length : ℚ) + 1 := by positivity
  refine ⟨hcount, htotal, hmin, hmax, ?_, ?_, ?_⟩
  · simp only [LatencyStats.mean, hcount, htotal]
    have h0 : xs.length + 1 ≠ 0 := Nat.succ_ne_zero _
    simp [h0]
  · rw [le_div_iff₀ hpos]
    exact foldl_min_mul_le_sum xs x
  · rw [div_le_iff₀ hpos]
    exact sum_le_foldl_max_mul xs x

/-! ## Helper lemmas: 3-decimal rounding -/

theorem pyRound3_threeDecimal (x : ℚ) : threeDecimal (pyRound3 x) :=
  ⟨pyRoundInt (x * 1000), rfl⟩

theorem pyRoundInt_intCast (n : ℤ) : pyRoundInt ((n : ℚ)) = n := by
  simp [pyRoundInt, Int.floor_intCast]

theorem pyRound3_idem (x : ℚ) : pyRound3 (pyRound3 x) = pyRound3 x := by
  unfold pyRound3
  have h : ((pyRoundInt (x * 1000) : ℚ)) / 1000 * 1000 = ((pyRoundInt (x * 1000) : ℚ)) := by
    field_simp
  rw [h, pyRoundInt_intCast]

/-- Claim C7: the serialized form of every `RunSummary` carries the integer
total, the elapsed seconds rounded to (and representable in) 3 decimals,
the tally with stringified status keys, the start timestamp suffixed with
the UTC designator `"Z"`, and a latency block that is count-only exactly
when there are no samples and otherwise holds count plus the three
statistics rounded to 3 decimals. -/
theorem summary_to_dict_shape (s : RunSummary) :
    (s.to_dict).total_sent = s.total_sent ∧
    (s.to_dict).elapsed_s = pyRound3 s.elapsed_s ∧
    threeDecimal (s.to_dict).elapsed_s ∧
    (s.to_dict).status_counts = s.status_counts.map (fun p => (statusKeyStr p.1, p.2)) ∧
    (s.to_dict).started_at = s.started_at ++ "Z" ∧
    (s.latencies.count = 0 → (s.to_dict).latency = LatencyJson.countOnly) ∧
    (s.latencies.count ≠ 0 → (s.to_dict).latency =
      LatencyJson.full s.latencies.count (pyRound3 (pyOrZero s.latencies.mean))
        (pyRound3 (pyOrZero s.latencies.min_ms)) (pyRound3 (pyOrZero s.latencies.max_ms))) ∧
    latencyRounded (s.to_dict).latency := by
  refine ⟨rfl, rfl, pyRound3_threeDecimal _, rfl, rfl, ?_, ?_, ?_⟩
  · intro h
    simp [RunSummary.to_dict, h]
  · intro h
    simp [RunSummary.to_dict, h]
  · by_cases h : s.latencies.count = 0
    · simp [RunSummary.to_dict, h, latencyRounded]
    · simp only [RunSummary.to_dict, h, if_false]
      exact ⟨pyRound3_threeDecimal _, pyRound3_threeDecimal _, pyRound3_threeDecimal _⟩

/-- Witness for C7: a summary with no latency samples serializes its
latency block as count-only, and one with a sample serializes the full
block. -/
theorem summary_to_dict_shape_witness :
    ((⟨0, [], 0, latInit, "2025-01-01T00:00:00"⟩ : RunSummary).latencies.count = 0) ∧
    ((⟨0, [], 0, latInit, "2025-01-01T00:00:00"⟩ : RunSummary).to_dict).latency
      = LatencyJson.countOnly ∧
    ((⟨1, [(StatusKey.code 200, 1)], 1, latInit.add 10, "2025-01-01T00:00:00"⟩ :
        RunSummary).to_dict).latency
      = LatencyJson.full 1 10 10 10 :=
  ⟨rfl,
   (summary_to_dict_shape ⟨0, [], 0, latInit, "2025-01-01T00:00:00"⟩).2.2.2.2.2.1 rfl,
   by
    have h := (summary_to_dict_shape
      ⟨1, [(StatusKey.code 200, 1)], 1, latInit.add 10, "2025-01-01T00:00:00"⟩).2.2.2.2.2.2.1
      (by decide)
    rw [h]
    norm_num [LatencyStats.add, latInit, LatencyStats.mean, pyOrZero, pyRound3, pyRoundInt]⟩

/-- Claim C8: serializing a `RunSummary` through `to_dict` into the JSON
payload and reading the record back yields exactly the original
`total_sent`, the 3-decimal `elapsed_s` (re-rounding is the identity, so
the value survives at 3-decimal precision), and the stringified
`status_counts` mapping. -/
theorem summary_json_roundtrip (s : RunSummary) :
    jLookup (summaryJson s.to_dict) "total_sent" = some (Json.num s.total_sent) ∧
    jLookup (summaryJson s.to_dict) "elapsed_s" = some (Json.num (pyRound3 s.elapsed_s)) ∧
    jLookup (summaryJson s.to_dict) "status_counts" =
      some (Json.obj ((s.to_dict).status_counts.map (fun p => (p.1, Json.num p.2)))) ∧
    (s.to_dict).status_counts = s.status_counts.map (fun p => (statusKeyStr p.1, p.2)) ∧
    pyRound3 (pyRound3 s.elapsed_s) = pyRound3 s.elapsed_s :=
  ⟨rfl, rfl, rfl, rfl, pyRound3_idem s.elapsed_s⟩

/-! ## Helper lemmas: header parsing -/

theorem lookupAssoc_insertAssoc (m : List (String × String)) (k v : String) :
    lookupAssoc (insertAssoc m k v) k = some v := by
  induction m with
  | nil => simp [insertAssoc, lookupAssoc]
  | cons p rest ih =>
    obtain ⟨k₀, v₀⟩ := p
    by_cases h : k₀ = k
    · simp [insertAssoc, h, lookupAssoc]
    · simp [insertAssoc, h, lookupAssoc, ih]

theorem parseAux_error_iff (ls : List String) : ∀ acc : List (String × String),
    (∃ e, parseHeaderLinesAux ls acc = .error e) ↔ ∃ l ∈ ls, isBadHeaderLine l = true := by
  induction ls with
  | nil => intro acc; simp [parseHeaderLinesAux]
  | cons line rest ih =>
    intro acc
    by_cases hblank : (pyStrip line.data).isEmpty
    · have hstep : parseHeaderLinesAux (line :: rest) acc = parseHeaderLinesAux rest acc := by
        simp [parseHeaderLinesAux, hblank]
      have hbad : isBadHeaderLine line = false := by
        simp [isBadHeaderLine, hblank]
      rw [hstep, ih acc]
      simp only [List.mem_cons]
      constructor
      · rintro ⟨l, hl, hb⟩
        exact ⟨l, Or.inr hl, hb⟩
      · rintro ⟨l, hl | hl', hb⟩
        · subst hl; rw [hbad] at hb; cases hb
        · exact ⟨l, hl', hb⟩
    · rcases hsp : splitFirst ':' (pyStrip line.data) with _ | ⟨n, v⟩
      · have hstep : parseHeaderLinesAux (line :: rest) acc = .error (.noColon line) := by
          simp [parseHeaderLinesAux, hblank, hsp]
        have hbad : isBadHeaderLine line = true := by
          simp [isBadHeaderLine, hblank, hsp]
        rw [hstep]
        simp only [List.mem_cons]
        exact ⟨fun _ => ⟨line, Or.inl rfl, hbad⟩, fun _ => ⟨HeaderError.noColon line, rfl⟩⟩
      · by_cases hname : (pyStrip n).isEmpty
        · have hstep : parseHeaderLinesAux (line :: rest) acc = .error (.emptyName line) := by
            simp [parseHeaderLinesAux, hblank, hsp, hname]
          have hbad : isBadHeaderLine line = true := by
            simp [isBadHeaderLine, hblank, hsp, hname]
          rw [hstep]
          simp only [List.mem_cons]
          exact ⟨fun _ => ⟨line, Or.inl rfl, hbad⟩, fun _ => ⟨HeaderError.emptyName line, rfl⟩⟩
        · have hstep : parseHeaderLinesAux (line :: rest) acc =
              parseHeaderLinesAux rest
                (insertAssoc acc (String.mk (pyStrip n)) (String.mk (pyStrip v))) := by
            simp [parseHeaderLinesAux, hblank, hsp, hname]
          have hbad : isBadHeaderLine line = false := by
            simp [isBadHeaderLine, hblank, hsp, hname]
          rw [hstep, ih]
          simp only [List.mem_cons]
          constructor
          · rintro ⟨l, hl, hb⟩
            exact ⟨l, Or.inr hl, hb⟩
          · rintro ⟨l, hl | hl', hb⟩
            · subst hl; rw [hbad] at hb; cases hb
            · exact ⟨l, hl', hb⟩

theorem parseAux_error_line (ls : List String) : ∀ (acc : List (String × String)) (e : HeaderError),
    parseHeaderLinesAux ls acc = .error e → e.line ∈ ls ∧ isBadHeaderLine e.line = true := by
  induction ls with
  | nil => intro acc e h; simp [parseHeaderLinesAux] at h
  | cons line rest ih =>
    intro acc e h
    by_cases hblank : (pyStrip line.data).isEmpty
    · have hstep : parseHeaderLinesAux (line :: rest) acc = parseHeaderLinesAux rest acc := by
        simp [parseHeaderLinesAux, hblank]
      rw [hstep] at h
      obtain ⟨h₁, h₂⟩ := ih acc e h
      exact ⟨List.mem_cons_of_mem _ h₁, h₂⟩
    · rcases hsp : splitFirst ':' (pyStrip line.data) with _ | ⟨n, v⟩
      · have hstep : parseHeaderLinesAux (line :: rest) acc = .error (.noColon line) := by
          simp [parseHeaderLinesAux, hblank, hsp]
        rw [hstep] at h
        injection h with h'
        subst h'
        exact ⟨List.mem_cons_self _ _, by simp [isBadHeaderLine, HeaderError.line, hblank, hsp]⟩
      · by_cases hname : (pyStrip n).isEmpty
        · have hstep : parseHeaderLinesAux (line :: rest) acc = .error (.emptyName line) := by
            simp [parseHeaderLinesAux, hblank, hsp, hname]
          rw [hstep] at h
          injection h with h'
          subst h'
          exact ⟨List.mem_cons_self _ _,
            by simp [isBadHeaderLine, HeaderError.line, hblank, hsp, hname]⟩
        · have hstep : parseHeaderLinesAux (line :: rest) acc =
              parseHeaderLinesAux rest
                (insertAssoc acc (String.mk (pyStrip n)) (String.mk (pyStrip v))) := by
            simp [parseHeaderLinesAux, hblank, hsp, hname]
          rw [hstep] at h
          obtain ⟨h₁, h₂⟩ := ih _ e h
          exact ⟨List.mem_cons_of_mem _ h₁, h₂⟩

/-- Claim C5: header text maps to a name-to-value mapping with blank lines
skipped, names and values trimmed, the split at the first colon, and a
later duplicate overwriting an earlier one; in particular
`"A: 1\nA: 2\nB:3"` yields exactly the two-entry mapping with `A = "2"`
and `B = "3"`. -/
theorem header_parse_values :
    parse_header_lines "A: 1\nA: 2\nB:3" = .ok [("A", "2"), ("B", "3")] ∧
    parse_header_lines "  \n\nHost :  example.com  \n" = .ok [("Host", "example.com")] ∧
    parse_header_lines "A: x:y:z" = .ok [("A", "x:y:z")] ∧
    ∀ (m : List (String × String)) (k v : String),
      lookupAssoc (insertAssoc m k v) k = some v :=
  ⟨rfl, rfl, rfl, lookupAssoc_insertAssoc⟩

/-- Claim C6: `parse_header_lines` raises exactly when some non-blank line
has no colon or an empty trimmed name; the raised error carries — and its
message textually contains — the offending line; in particular
`"bad-line-no-colon"` raises the colon-format error naming that line. -/
theorem header_parse_error_spec :
    parse_header_lines "bad-line-no-colon" = .error (.noColon "bad-line-no-colon") ∧
    (HeaderError.noColon "bad-line-no-colon").message
      = "헤더 형식 오류: 'bad-line-no-colon' (Name: Value)" ∧
    (∀ l, ∃ pre post, (HeaderError.noColon l).message = pre ++ l ++ post) ∧
    (∀ l, ∃ pre post, (HeaderError.emptyName l).message = pre ++ l ++ post) ∧
    (∀ raw, (∃ e, parse_header_lines raw = .error e) ↔
      ∃ l ∈ pySplitlines raw, isBadHeaderLine l = true) ∧
    (∀ raw e, parse_header_lines raw = .error e →
      e.line ∈ pySplitlines raw ∧ isBadHeaderLine e.line = true) := by
  refine ⟨rfl, rfl, ?_, ?_, ?_, ?_⟩
  · intro l
    refine ⟨"헤더 형식 오류: '", "' (Name: Value)", ?_⟩
    simp only [HeaderError.message, pyRepr, String.append_assoc]
    rw [← String.append_assoc]
    congr 1
  · intro l
    refine ⟨"헤더 이름이 비어 있습니다: '", "'", ?_⟩
    simp only [HeaderError.message, pyRepr, String.append_assoc]
    rw [← String.append_assoc]
    congr 1
  · intro raw
    exact parseAux_error_iff (pySplitlines raw) []
  · intro raw e h
    exact parseAux_error_line (pySplitlines raw) [] e h

/-- Witness for C6: the error-iff at a concrete colon-free input. -/
theorem header_parse_error_spec_witness :
    ∃ e, parse_header_lines "no-colon-here" = .error e :=
  (header_parse_error_spec.2.2.2.2.1 "no-colon-here").mpr
    ⟨"no-colon-here", by decide, by decide⟩

/-! ## Helper lemmas: Except plumbing -/

theorem except_map_ok_iff {α β γ : Type} (f : α → β) (e : Except γ α) :
    (∃ b, e.map f = .ok b) ↔ ∃ a, e = .ok a := by
  cases e <;> simp [Except.map]

theorem except_map_error_iff {α β γ : Type} (f : α → β) (e : Except γ α) (x : γ) :
    e.map f = .error x ↔ e = .error x := by
  cases e <;> simp [Except.map]

/-- Counterexample to C2 as stated: `RunConfig.from_fields` with an empty
URL, `rps = 0`, `duration_s = 0` and `timeout_s = 0` succeeds — no
configuration error is raised and the returned config carries the invalid
values. (The URL/rate/duration/timeout checks live in the GUI's
`collect_config`, Hermes.py line 545, not in the constructors.) -/
theorem from_fields_unvalidated_cex :
    RunConfig.from_fields "" "GET" 0 0 0 "" "" =
      .ok { url := "", method := "GET", rps := 0, duration_s := 0, timeout_s := 0,
            headers := [], body := none, headers_text := "", body_text := "" } := rfl

/-- Claim C2 (amended): `RunConfig.from_fields` and `RunConfig.from_dict`
validate only the header text — construction fails exactly when
`parse_header_lines` fails, and a successful construction passes the URL,
rps, duration and timeout through unchecked (they may be empty or
non-positive). -/
theorem from_fields_validates_only_headers (u m : String) (r d : Int) (t : ℚ)
    (ht bt : String) (pd : PresetDict) :
    ((∃ cfg, RunConfig.from_fields u m r d t ht bt = .ok cfg) ↔
      (∃ hs, parse_header_lines ht = .ok hs)) ∧
    (∀ e, RunConfig.from_fields u m r d t ht bt = .error e ↔
      parse_header_lines ht = .error e) ∧
    (∀ cfg, RunConfig.from_fields u m r d t ht bt = .ok cfg →
      cfg.url = u ∧ cfg.method = m ∧ cfg.rps = r ∧ cfg.duration_s = d ∧ cfg.timeout_s = t) ∧
    ((∃ cfg, RunConfig.from_dict pd = .ok cfg) ↔
      (∃ hs, parse_header_lines pd.headers = .ok hs)) := by
  refine ⟨except_map_ok_iff _ _, fun e => except_map_error_iff _ _ e, ?_, ?_⟩
  · intro cfg hcfg
    unfold RunConfig.from_fields at hcfg
    cases hp : parse_header_lines ht with
    | error e =>
      rw [hp] at hcfg
      simp [Except.map] at hcfg
    | ok hs =>
      rw [hp] at hcfg
      simp only [Except.map] at hcfg
      injection hcfg with h'
      subst h'
      exact ⟨rfl, rfl, rfl, rfl, rfl⟩
  · unfold RunConfig.from_dict RunConfig.from_fields
    exact except_map_ok_iff _ _

/-- Witness for C2 (amended): a config with empty URL and non-positive
numbers is still constructed whenever the (empty) header text parses. -/
theorem from_fields_validates_only_headers_witness :
    ∃ cfg, RunConfig.from_fields "" "POST" (-1) 0 0 "" "" = .ok cfg :=
  (from_fields_validates_only_headers "" "POST" (-1) 0 0 "" ""
    { url := "u" }).1.mpr ⟨[], rfl⟩

/-- Counterexample to C3 as stated: on a cancellation event `fetch` does
not return an outcome triple — `asyncio.CancelledError` derives from
`BaseException` (Python ≥ 3.8, required by aiohttp ≥ 3.9), so the
`except Exception` clause at Hermes.py line 198 does not catch it and it
propagates to the caller (which is why `run_probe` catches
`CancelledError` around `finished.result()` at lines 250-251). -/
theorem fetch_cancel_propagates_cex :
    fetch TransportEvent.cancelled = .error () := rfl

/-- Claim C3 (amended): for every invocation other than cancellation —
any received response or any raised `Exception` (connection failure,
timeout expiry, protocol error) — `fetch` returns a well-formed triple
whose error description is present exactly when the status is the `None`
error marker; cancellation instead propagates to the caller. -/
theorem fetch_total_outcomes (ev : TransportEvent) (h : ev ≠ TransportEvent.cancelled) :
    ∃ st dt err, fetch ev = .ok (st, dt, err) ∧ (err.isSome = true ↔ st = none) := by
  cases ev with
  | response s dt => exact ⟨some s, dt, none, rfl, by simp⟩
  | fault d dt => exact ⟨none, dt, some d, rfl, by simp⟩
  | cancelled => exact absurd rfl h

/-- Witness for C3 (amended): a concrete transport fault resolves to the
error-marker triple. -/
theorem fetch_total_outcomes_witness :
    (TransportEvent.fault "Cannot connect to host" 5 ≠ TransportEvent.cancelled) ∧
    ∃ st dt err, fetch (TransportEvent.fault "Cannot connect to host" 5) = .ok (st, dt, err) ∧
      (err.isSome = true ↔ st = none) :=
  ⟨by decide, fetch_total_outcomes _ (by decide)⟩

/-! ## Helper lemmas: headless mode -/

theorem headlessFinish_not_conflict (url method : String) (rps duration : Int)
    (timeout : ℚ) (ht bt : String) :
    headlessFinish url method rps duration timeout ht bt ≠ .error .conflictHeaders ∧
    headlessFinish url method rps duration timeout ht bt ≠ .error .conflictBody := by
  unfold headlessFinish
  by_cases hu : url = ""
  · simp [hu]
  · simp only [hu, if_false]
    cases hf : RunConfig.from_fields (pyStripS url) (pyOrDefault (pyUpperS (pyStripS method)) "GET")
        rps duration timeout ht bt with
    | error e => simp [Except.mapError]
    | ok cfg => simp [Except.mapError]

/-- Claim C10 (amended): `run_headless` raises the `--headers`/`--headers-path`
(resp. `--body`/`--body-path`) `ValueError` exactly when BOTH options of
the pair are truthy — supplied with non-empty values — and this happens
before any configuration is built; when at most one of each pair is
truthy, neither of these two errors is ever produced, whatever the rest
of the run does. -/
theorem headless_conflict_checks (readFile : String → String) (a : HeadlessArgs) :
    ((pyTruthy a.headers && pyTruthy a.headers_path) = true →
      run_headless_config readFile a = .error .conflictHeaders) ∧
    ((pyTruthy a.headers && pyTruthy a.headers_path) = false →
      (pyTruthy a.body && pyTruthy a.body_path) = true →
      run_headless_config readFile a = .error .conflictBody) ∧
    ((pyTruthy a.headers && pyTruthy a.headers_path) = false →
      (pyTruthy a.body && pyTruthy a.body_path) = false →
      run_headless_config readFile a ≠ .error .conflictHeaders ∧
      run_headless_config readFile a ≠ .error .conflictBody) := by
  refine ⟨?_, ?_, ?_⟩
  · intro h
    simp [run_headless_config, h]
  · intro h1 h2
    simp [run_headless_config, h1, h2]
  · intro h1 h2
    have key : ∀ err, (err = HeadlessError.conflictHeaders ∨ err = HeadlessError.conflictBody) →
        run_headless_config readFile a ≠ .error err := by
      intro err herr hc
      simp only [run_headless_config, h1, h2, Bool.false_eq_true, if_false] at hc
      split at hc
      · split at hc
        · rcases herr with rfl | rfl <;> simp at hc
        · rcases herr with rfl | rfl
          · exact (headlessFinish_not_conflict _ _ _ _ _ _ _).1 hc
          · exact (headlessFinish_not_conflict _ _ _ _ _ _ _).2 hc
      · rcases herr with rfl | rfl
        · exact (headlessFinish_not_conflict _ _ _ _ _ _ _).1 hc
        · exact (headlessFinish_not_conflict _ _ _ _ _ _ _).2 hc
    exact ⟨key _ (Or.inl rfl), key _ (Or.inr rfl)⟩

/-- Counterexample to C10 as stated: `--headers ""` together with
`--headers-path h.txt` supplies both options of the pair, yet no
`ValueError` is raised — the check at Hermes.py line 926 tests Python
truthiness, and the empty string is falsy, so the run proceeds (here all
the way to a successfully built config, reading an empty header file). -/
theorem headless_conflict_cex :
    run_headless_config (fun _ => "")
      { url := some "https://example.com/health", headers := some "",
        headers_path := some "h.txt" } =
      .ok { url := "https://example.com/health", method := "GET", rps := 5, duration_s := 30,
            timeout_s := 10, headers := [], body := none, headers_text := "",
            body_text := "" } := rfl

/-- Witness for C10 (amended): both pair members truthy does raise the
conflict error. -/
theorem headless_conflict_checks_witness :
    run_headless_config (fun _ => "")
      { url := some "u", headers := some "X: 1", headers_path := some "p" } =
      .error .conflictHeaders :=
  (headless_conflict_checks (fun _ => "")
    { url := some "u", headers := some "X: 1", headers_path := some "p" }).1 rfl
